import Mathlib

/-!
Shallow embedding of the spreadsheet-ingestion pipeline of the
grade-analytics repository (src/src/components/FileUpload.tsx), together
with theorems settling the frozen claims about its specification.

The repository file contains two revisions of the upload component:
a legacy single-row pipeline (its grade classifier is the three-tier
`passingGrades` / `failingGrades` / substring fallback) and the current
batched pipeline (header auto-detection, column validation, course
reconciliation, student dedup/upsert, diagnostics, chunked grade writes).
Both are embedded below.  Cell values coming out of the spreadsheet are
modelled by `CellValue`; JavaScript truthiness, `String(...)` coercion,
`??` and `||` are modelled explicitly.  Store calls are modelled as pure
oracles (lookup maps / fetched row lists / upsert outcomes) passed in as
arguments, which is exactly the data flow of the awaited supabase calls.
-/

/-- A JavaScript value as it can appear in a parsed spreadsheet cell or as
the result of a failed object lookup: `null`, `undefined`, a string, or a
number (integral cells; nothing in the claims depends on non-integral
numerics). -/
inductive CellValue where
  | vNull
  | vUndef
  | vStr (s : String)
  | vNum (n : Int)
deriving DecidableEq

open CellValue

/-- JavaScript truthiness of a `CellValue` (`null`, `undefined`, `''` and
`0` are falsy). -/
def jsTruthy : CellValue → Bool
  | vNull => false
  | vUndef => false
  | vStr s => s ≠ ""
  | vNum n => n ≠ 0

/-- JavaScript `x == null`, i.e. `x` is `null` or `undefined`. -/
def jsNullish : CellValue → Bool
  | vNull => true
  | vUndef => true
  | vStr _ => false
  | vNum _ => false

/-- JavaScript `String(x)` (also `x.toString()` for the non-nullish values
it is applied to in the source). -/
def jsString : CellValue → String
  | vNull => "null"
  | vUndef => "undefined"
  | vStr s => s
  | vNum n => toString n

/-- JavaScript `a ?? b`. -/
def jsCoalesce (a b : CellValue) : CellValue :=
  if jsNullish a then b else a

/-- JavaScript `a || b`. -/
def jsOrElse (a b : CellValue) : CellValue :=
  if jsTruthy a then a else b

/-- ASCII lower-case conversion of one character, the fragment of
JavaScript `toLowerCase` exercised by the source's header labels and grade
tokens. -/
def lowerChar (c : Char) : Char :=
  if 'A' ≤ c ∧ c ≤ 'Z' then Char.ofNat (c.toNat + 32) else c

/-- ASCII upper-case conversion of one character, the fragment of
JavaScript `toUpperCase` exercised by the source's course codes and grade
tokens. -/
def upperChar (c : Char) : Char :=
  if 'a' ≤ c ∧ c ≤ 'z' then Char.ofNat (c.toNat - 32) else c

/-- The whitespace characters matched by the JavaScript `\s` class (the
ASCII ones plus no-break space; further exotic Unicode spaces behave
identically for every claim below). -/
def wsChars : List Char :=
  [' ', '\t', '\n', '\r', Char.ofNat 11, Char.ofNat 12, Char.ofNat 160]

/-- Whether a character is whitespace in the sense of `\s` / `trim`. -/
def isWsChar (c : Char) : Bool := wsChars.contains c

/-- Whether a character survives the `[^A-Z0-9]` deletion. -/
def isAZ09 (c : Char) : Bool :=
  ('A' ≤ c && c ≤ 'Z') || ('0' ≤ c && c ≤ '9')

/-- JavaScript `s.toLowerCase()`. -/
def jsToLower (s : String) : String := ⟨s.data.map lowerChar⟩

/-- JavaScript `s.toUpperCase()`. -/
def jsToUpper (s : String) : String := ⟨s.data.map upperChar⟩

/-- JavaScript `s.trim()`. -/
def jsTrim (s : String) : String :=
  ⟨((s.data.dropWhile isWsChar).reverse.dropWhile isWsChar).reverse⟩

/-- Whether `sub` occurs at the head of `hay`. -/
def leadsWith : List Char → List Char → Bool
  | [], _ => true
  | _ :: _, [] => false
  | a :: as, b :: bs => a == b && leadsWith as bs

/-- Whether `sub` occurs contiguously somewhere in `hay`. -/
def hasSegFrom (sub : List Char) : List Char → Bool
  | [] => leadsWith sub []
  | c :: rest => leadsWith sub (c :: rest) || hasSegFrom sub rest

/-- JavaScript `s.includes(sub)`. -/
def jsIncludes (s sub : String) : Bool := hasSegFrom sub.data s.data

/-- The fixed passing set of the legacy classifier
(FileUpload v1, line 130). -/
def passingGrades : List String := ["O", "A+", "A", "B+", "B", "C+", "C"]

/-- The fixed failing set of the legacy classifier
(FileUpload v1, line 131). -/
def failingGrades : List String :=
  ["D", "F", "Fail", "FAIL", "fail", "U", "RA", "Ab", "AB", "ab",
   "Absent", "ABSENT", "W", "I", "Wh", "WH"]

/-- The legacy pipeline's grade classifier (FileUpload v1, lines 130-141):
exact passing-set membership, else exact failing-set membership, else the
lower-cased substring fallback. -/
def isPassedLegacy (grade : String) : Bool :=
  if passingGrades.contains grade then true
  else if failingGrades.contains grade then false
  else !(failingGrades.any fun f => jsIncludes (jsToLower grade) (jsToLower f))

/-- The token list of the batched pipeline's inline classifier
(FileUpload v2, line 652). -/
def batchedFailTokens : List String :=
  ["F", "AB", "Ab", "ab", "WH", "Wh", "wh"]

/-- The batched pipeline's grade classifier (FileUpload v2, line 652):
`!['F','AB','Ab','ab','WH','Wh','wh'].includes(gradeStr.toUpperCase())`. -/
def isPassedBatched (gradeStr : String) : Bool :=
  !(batchedFailTokens.contains (jsToUpper gradeStr))

example : isPassedLegacy "A+" = true := by decide
example : isPassedLegacy "Absent" = false := by decide
example : isPassedLegacy "O (late)" = true := by decide
example : isPassedLegacy "xRAx" = false := by decide
example : isPassedBatched "D" = true := by decide
example : isPassedBatched "aB" = false := by decide

/-- A parsed spreadsheet record: the object built from the detected header
row, as an association list of (header key, cell value) in object key
order.  A key that is absent from the object is looked up as `vUndef`. -/
abbrev Row := List (String × CellValue)

/-- `getColumnValue(record, columnName)` (FileUpload v2, lines 448-454):
the value of the first object key that equals `columnName` after trimming
and lower-casing, else `undefined`. -/
def getColumnValue (record : Row) (columnName : String) : CellValue :=
  match record.find? (fun kv => jsToLower (jsTrim kv.fst) == jsToLower columnName) with
  | some kv => kv.snd
  | none => vUndef

/-- `normalizeCourseCode` (FileUpload v2, lines 456-459):
`String(code ?? '').toUpperCase().replace(/\s+/g, '').replace(/[^A-Z0-9]/g, '')`. -/
def normalizeCourseCode (code : CellValue) : String :=
  ⟨(((jsString (jsCoalesce code (vStr ""))).data.map upperChar).filter
      (fun c => !isWsChar c)).filter isAZ09⟩

/-- `normalizeRegisterNumber` (FileUpload v2, line 460):
`String(reg ?? '').trim()`. -/
def normalizeRegisterNumber (reg : CellValue) : String :=
  jsTrim (jsString (jsCoalesce reg (vStr "")))

/-- The 14 required canonical column labels (FileUpload v2, lines 420-424,
identical to the header hints of lines 361-365). -/
def requiredColumns : List String :=
  ["S.No", "Office Name", "Register No", "Student Name", "Semester",
   "Batch", "Degree", "Branch of Study", "Graduation Type",
   "Course Code", "Course Title", "Credits", "Grade", "Mode Of Attempt"]

/-- `requiredHeaderHints` (FileUpload v2, lines 361-365): the 14 labels
lower-cased. -/
def requiredHeaderHints : List String := requiredColumns.map jsToLower

/-- A sheet as a grid of cell values, row-major, starting at row 0; an
absent cell is `vUndef`. -/
abbrev Grid := List (List CellValue)

/-- The trimmed string forms of the defined cells of one grid row
(FileUpload v2, lines 371-377: cells with a defined value contribute
`String(cell.v).trim()`). -/
def definedCellText (row : List CellValue) : List String :=
  row.filterMap fun c =>
    match c with
    | vUndef => none
    | c => some (jsTrim (jsString c))

/-- The header score of one grid row (FileUpload v2, lines 378-379): how
many of the 14 lower-cased hints occur among the row's lower-cased
trimmed defined cell values. -/
def rowScore (row : List CellValue) : Nat :=
  (requiredHeaderHints.filter
    (fun hint => ((definedCellText row).map jsToLower).contains hint)).length

/-- Header auto-detection (FileUpload v2, lines 367-384): with the sheet
range starting at row 0, `maxScan = min(0 + 10, lastRow)`; the loop runs
`r = 0 .. maxScan` inclusive and selects the first row with score at least
6, defaulting to row 0. -/
def headerRowIndex (grid : Grid) : Nat :=
  let lastRow := grid.length - 1
  let maxScan := min 10 lastRow
  match (List.range (maxScan + 1)).find? (fun r => 6 ≤ rowScore (grid.getD r [])) with
  | some r => r
  | none => 0

/-- Required-column validation (FileUpload v2, lines 432-438): the
canonical columns having no actual column equal to them after trimming
and lower-casing the actual header. -/
def missingColumns (actualColumns : List String) : List String :=
  requiredColumns.filter fun requiredCol =>
    !((actualColumns.map jsTrim).any fun actualCol =>
        jsToLower actualCol == jsToLower requiredCol)

/-- The fail-fast error message of FileUpload v2, line 441. -/
def missingColumnsMsg (missing actualColumns : List String) : String :=
  "Missing required columns: " ++ String.intercalate ", " missing ++
    ". Found columns: " ++ String.intercalate ", " actualColumns

example : getColumnValue [("  reGister nO ", vStr "R1")] "Register No" = vStr "R1" := by decide
example : normalizeCourseCode (vStr " 21csc204j ") = "21CSC204J" := by decide
example : normalizeCourseCode vNull = "" := by decide
example : normalizeCourseCode (vNum 305) = "305" := by decide
example : missingColumns ["s.no "] ≠ [] := by decide

/-- The per-course information accumulated by the reconciler
(FileUpload v2, line 445): raw title and credits cell values. -/
structure CourseInfo where
  title : CellValue
  credits : CellValue
deriving DecidableEq

/-- Association-list lookup modelling `Map.get` (first — and in a JS map
only — binding of the key). -/
def findVal {α : Type} (m : List (String × α)) (k : String) : Option α :=
  match m.find? (fun kv => kv.fst == k) with
  | some kv => some kv.snd
  | none => none

/-- Association-list update modelling `Map.set`: replace the binding of an
existing key in place, else append a new binding. -/
def setVal {α : Type} : List (String × α) → String → α → List (String × α)
  | [], k, v => [(k, v)]
  | (k₀, v₀) :: t, k, v =>
      if k₀ == k then (k, v) :: t else (k₀, v₀) :: setVal t k v

/-- One step of the course-map construction (FileUpload v2, lines
463-477): skip rows whose normalized course code is empty, insert the
first sighting's raw title/credits, and thereafter backfill the title only
when the stored one is falsy and the new one truthy, and the credits only
when the stored ones are nullish and the new ones are not. -/
def courseStep (m : List (String × CourseInfo)) (record : Row) :
    List (String × CourseInfo) :=
  let courseCode := normalizeCourseCode (getColumnValue record "Course Code")
  if courseCode == "" then m
  else
    let courseTitle := getColumnValue record "Course Title"
    let credits := getColumnValue record "Credits"
    match findVal m courseCode with
    | none => setVal m courseCode ⟨courseTitle, credits⟩
    | some existing =>
        setVal m courseCode
          ⟨if !jsTruthy existing.title && jsTruthy courseTitle then courseTitle
            else existing.title,
           if jsNullish existing.credits && !jsNullish credits then credits
            else existing.credits⟩

/-- Course-map construction over the records in file order. -/
def buildCourseMapGo (m : List (String × CourseInfo)) :
    List Row → List (String × CourseInfo)
  | [] => m
  | r :: rs => buildCourseMapGo (courseStep m r) rs

/-- `courseMap` (FileUpload v2, lines 445, 462-477). -/
def buildCourseMap (records : List Row) : List (String × CourseInfo) :=
  buildCourseMapGo [] records

/-- `Set.add`: append if absent, preserving insertion order. -/
def addToSet (s : List String) (x : String) : List String :=
  if s.contains x then s else s ++ [x]

/-- `allCourseCodesSet` accumulation (FileUpload v2, lines 462-466): rows
with an empty normalized code are skipped before the add. -/
def allCourseCodesGo (s : List String) : List Row → List String
  | [] => s
  | r :: rs =>
      let courseCode := normalizeCourseCode (getColumnValue r "Course Code")
      allCourseCodesGo (if courseCode == "" then s else addToSet s courseCode) rs

/-- `allCourseCodes = Array.from(allCourseCodesSet)` (FileUpload v2,
line 485). -/
def allCourseCodes (records : List Row) : List String :=
  allCourseCodesGo [] records

/-- A row of the `courses` upsert payload (FileUpload v2, lines 504-511
and 605). -/
structure CoursePayload where
  code : String
  name : CellValue
  credits : CellValue
deriving DecidableEq

/-- `newCourses` (FileUpload v2, lines 498-499): the batch codes whose
normalization is not among the normalized fetched codes. -/
def newCourses (records : List Row) (existingRows : List String) : List String :=
  let existingCourseCodes := existingRows.map (fun c => normalizeCourseCode (vStr c))
  (allCourseCodes records).filter
    (fun code => !(existingCourseCodes.contains (normalizeCourseCode (vStr code))))

/-- `coursesToInsert` (FileUpload v2, lines 504-511): name defaults to the
captured title when truthy, else the code; credits default to null when
nullish. -/
def coursesToInsert (records : List Row) (existingRows : List String) :
    List CoursePayload :=
  (newCourses records existingRows).map fun code =>
    match findVal (buildCourseMap records) code with
    | some courseInfo =>
        ⟨code,
         if jsTruthy courseInfo.title then courseInfo.title else vStr code,
         if jsNullish courseInfo.credits then vNull else courseInfo.credits⟩
    | none => ⟨code, vStr code, vNull⟩

/-- A row of the `students` upsert payload (FileUpload v2, lines
526-535). -/
structure StudentTuple where
  register_number : String
  name : CellValue
  semester : CellValue
  batch : CellValue
  degree : CellValue
  office_name : CellValue
  branch_of_study : CellValue
  graduation_type : CellValue
deriving DecidableEq

/-- `studentsToUpsert` (FileUpload v2, lines 526-535): every record is
mapped; only the register number is normalized. -/
def studentsToUpsert (records : List Row) : List StudentTuple :=
  records.map fun record =>
    ⟨normalizeRegisterNumber (getColumnValue record "Register No"),
     getColumnValue record "Student Name",
     getColumnValue record "Semester",
     getColumnValue record "Batch",
     getColumnValue record "Degree",
     getColumnValue record "Office Name",
     getColumnValue record "Branch of Study",
     getColumnValue record "Graduation Type"⟩

/-- `uniqueStudents` (FileUpload v2, lines 538-543): the reduce that
pushes a tuple only when no already-kept tuple has its register number. -/
def uniqueStudents (l : List StudentTuple) : List StudentTuple :=
  l.foldl
    (fun acc student =>
      if acc.any (fun s => s.register_number == student.register_number) then acc
      else acc ++ [student])
    []

/-- First-occurrence deduplication stated the way the spec words it: walk
the list in order, keep a tuple exactly when its register number has not
been seen before.  Used to characterize `uniqueStudents`. -/
def keepFirstByReg (seen : List String) : List StudentTuple → List StudentTuple
  | [] => []
  | s :: rest =>
      if seen.contains s.register_number then keepFirstByReg seen rest
      else s :: keepFirstByReg (seen ++ [s.register_number]) rest

/-- A row of the `grades` upsert payload (FileUpload v2, lines 654-660). -/
structure GradePayload where
  student_id : String
  course_id : String
  grade : String
  is_passed : Bool
  mode_of_attempt : CellValue
deriving DecidableEq

/-- The outcome of the grade-preparation pass: the payloads in row order
plus the three per-reason skip counters of FileUpload v2, lines
627-629. -/
structure GradeDiag where
  payloads : List GradePayload
  missingStudentId : Nat
  missingCourseId : Nat
  missingOrEmptyGrade : Nat
deriving DecidableEq

/-- JS truthiness of a `Map.get` result holding a string id (`undefined`
on a miss, and an empty string would also be falsy). -/
def idTruthy : Option String → Bool
  | none => false
  | some s => s ≠ ""

/-- The grade-preparation pass (FileUpload v2, lines 632-676): a payload
is pushed only when the student id and the course id resolve and the
grade cell is truthy with a non-empty trimmed string form; otherwise the
per-reason counters are incremented (a row can increment several). -/
def prepareGrades (studentIdMap courseIdMap : String → Option String) :
    List Row → GradeDiag
  | [] => ⟨[], 0, 0, 0⟩
  | record :: rest =>
      let registerNo := normalizeRegisterNumber (getColumnValue record "Register No")
      let courseCode := normalizeCourseCode (getColumnValue record "Course Code")
      let grade := getColumnValue record "Grade"
      let modeOfAttempt := getColumnValue record "Mode Of Attempt"
      let studentId := studentIdMap registerNo
      let courseId := courseIdMap courseCode
      let acc := prepareGrades studentIdMap courseIdMap rest
      if idTruthy studentId && idTruthy courseId && jsTruthy grade then
        let gradeStr := jsTrim (jsString grade)
        if gradeStr ≠ "" then
          { acc with payloads :=
              ⟨studentId.getD "", courseId.getD "", gradeStr,
               isPassedBatched gradeStr,
               jsOrElse modeOfAttempt (vStr "Regular")⟩ :: acc.payloads }
        else
          { acc with missingOrEmptyGrade := acc.missingOrEmptyGrade + 1 }
      else
        { acc with
          missingStudentId :=
            acc.missingStudentId + (if idTruthy studentId then 0 else 1),
          missingCourseId :=
            acc.missingCourseId + (if idTruthy courseId then 0 else 1),
          missingOrEmptyGrade :=
            acc.missingOrEmptyGrade + (if jsTruthy grade then 0 else 1) }

/-- Fuel-indexed chunking; `fuel` bounds the number of chunks, and
`chunksOf` supplies enough fuel for any chunk size of at least 1. -/
def chunksGo {α : Type} (n : Nat) : Nat → List α → List (List α)
  | _, [] => []
  | 0, _ :: _ => []
  | fuel + 1, a :: as => (a :: as).take n :: chunksGo n fuel ((a :: as).drop n)

/-- The slice loop `for (let i = 0; i < l.length; i += n) l.slice(i, i+n)`
(FileUpload v2, lines 566-567 with `n = 100` and 694-695 with
`n = 500`). -/
def chunksOf {α : Type} (n : Nat) (l : List α) : List (List α) :=
  chunksGo n l.length l

/-- Sequential chunk writing (FileUpload v2, lines 694-711): `failAt k`
is the store's error message for the `k`-th (0-based) chunk write, `none`
meaning success.  Returns the chunks whose writes committed, in order,
and the first surfaced error, which reports the failing chunk's 1-based
index exactly as `Math.floor(i / gradeBatchSize) + 1` does. -/
def runBatchesGo {α : Type} (failAt : Nat → Option String) :
    Nat → List (List α) → List (List α) × Option String
  | _, [] => ([], none)
  | k, c :: cs =>
      match failAt k with
      | some msg =>
          ([], some ("Error upserting grades batch " ++ toString (k + 1) ++ ": " ++ msg))
      | none =>
          let res := runBatchesGo failAt (k + 1) cs
          (c :: res.fst, res.snd)

/-- The grade-writing stage (FileUpload v2, lines 689-712): chunk the
payloads at 500 and issue the chunk writes sequentially, stopping at the
first failure. -/
def saveGrades (failAt : Nat → Option String) (gradesToUpsert : List GradePayload) :
    List (List GradePayload) × Option String :=
  runBatchesGo failAt 0 (chunksOf 500 gradesToUpsert)

/-- The student-id lookup batches (FileUpload v2, lines 564-568): the
deduplicated student list is sliced at 100 per lookup request. -/
def studentIdBatches (l : List StudentTuple) : List (List StudentTuple) :=
  chunksOf 100 l

/-- `new Map(rows.map(c => [normalizeCourseCode(c.code), c.id]))`
(FileUpload v2, lines 601 and 617): later entries overwrite earlier
ones. -/
def mkIdMap (rows : List (String × String)) : List (String × String) :=
  rows.foldl (fun m p => setVal m (normalizeCourseCode (vStr p.fst)) p.snd) []

/-- The course-id resolution step with its one-shot fallback (FileUpload
v2, lines 601-619).  `fetch1` is the first `(code, id)` fetch for the
batch codes, `upsertResult` the outcome of the forced fallback upsert,
`fetch2` the re-query.  Returns the final id map together with the list
of forced-insert payloads that were issued (empty when no fallback
ran). -/
def resolveCourseIds (allCodes : List String)
    (fetch1 : List (String × String)) (upsertResult : Except String Unit)
    (fetch2 : List (String × String)) :
    Except String (List (String × String) × List CoursePayload) :=
  let courseIdMap := mkIdMap fetch1
  if courseIdMap.length == 0 && !(allCodes.isEmpty) then
    let fallbackInsert := allCodes.map fun code => CoursePayload.mk code (vStr code) vNull
    match upsertResult with
    | Except.error msg => Except.error ("Error ensuring courses: " ++ msg)
    | Except.ok _ => Except.ok (mkIdMap fetch2, fallbackInsert)
  else
    Except.ok (courseIdMap, [])

/-- The write payloads prepared by one ingestion run. -/
structure PipelineWrites where
  courseWrites : List CoursePayload
  studentWrites : List StudentTuple
  gradeChunks : List (List GradePayload)
deriving DecidableEq

/-- The processing pipeline after records are materialized (FileUpload
v2, lines 412-442 then 445-712), with store reads supplied as oracles:
empty-file check, required-column validation over the first record's
keys (failing fast with the enumerating message before any write), then
course reconciliation, student dedup and grade preparation/chunking. -/
def runPipeline (records : List Row) (existingRows : List String)
    (studentIdMap courseIdMap : String → Option String) :
    Except String PipelineWrites :=
  if records.isEmpty then Except.error "Excel file is empty"
  else
    let actualColumns := (records.headD []).map Prod.fst
    let missing := missingColumns actualColumns
    if !missing.isEmpty then
      Except.error (missingColumnsMsg missing actualColumns)
    else
      Except.ok
        ⟨coursesToInsert records existingRows,
         uniqueStudents (studentsToUpsert records),
         chunksOf 500 (prepareGrades studentIdMap courseIdMap records).payloads⟩

/-- A full 14-column record in sheet order. -/
def mkRecord (sno office reg sname sem batch degree branch gtype ccode ctitle credits grade mode : CellValue) : Row :=
  [("S.No", sno), ("Office Name", office), ("Register No", reg),
   ("Student Name", sname), ("Semester", sem), ("Batch", batch),
   ("Degree", degree), ("Branch of Study", branch), ("Graduation Type", gtype),
   ("Course Code", ccode), ("Course Title", ctitle), ("Credits", credits),
   ("Grade", grade), ("Mode Of Attempt", mode)]

/-- The spec's 3-row end-to-end scenario: (R1, Alice, 21CSC204J, A+),
(R1, Alice, 21CSC205P, F), and a row with an empty register number and
name carrying (21CSC206T, O).  Blank cells are `''` as `sheet_to_json`
produces with `defval: ''`. -/
def scenarioRows : List Row :=
  [mkRecord (vNum 1) (vStr "Off") (vStr "R1") (vStr "Alice") (vNum 4)
     (vStr "B21") (vStr "BTech") (vStr "CSE") (vStr "FT") (vStr "21CSC204J")
     (vStr "DSA") (vNum 4) (vStr "A+") (vStr "Regular"),
   mkRecord (vNum 2) (vStr "Off") (vStr "R1") (vStr "Alice") (vNum 4)
     (vStr "B21") (vStr "BTech") (vStr "CSE") (vStr "FT") (vStr "21CSC205P")
     (vStr "OS Lab") (vNum 2) (vStr "F") (vStr "Regular"),
   mkRecord (vNum 3) (vStr "Off") (vStr "") (vStr "") (vNum 4)
     (vStr "B21") (vStr "BTech") (vStr "CSE") (vStr "FT") (vStr "21CSC206T")
     (vStr "Networks") (vNum 3) (vStr "O") (vStr "Regular")]

/-- A non-header banner row. -/
def bannerRow : List CellValue := [vStr "SRM Institute Results"]

/-- A grid row holding the 14 canonical labels as cells. -/
def headerCells : List CellValue := requiredColumns.map vStr

/-- A data row below the header; none of its trimmed lower-cased cells is
a header hint. -/
def dataRow : List CellValue :=
  [vNum 1, vStr "Off", vStr "R1", vStr "Alice", vNum 4, vStr "B21",
   vStr "BTech", vStr "CSE", vStr "FT", vStr "21CSC204J", vStr "DSA",
   vNum 4, vStr "A+", vStr "Regular"]

/-- The claim's positive header-detection scenario: a 12-row grid with
three banner rows and the real header at row index 3. -/
def gridC4good : Grid :=
  [bannerRow, bannerRow, bannerRow, headerCells] ++ List.replicate 8 dataRow

/-- A 12-row grid whose only header-like row is at index 10: rows 0..9
are banners scoring 0. -/
def gridC4bad : Grid :=
  List.replicate 10 bannerRow ++ [headerCells, dataRow]

/-- Two rows sharing course code 21CSC204J: the first has an empty title
and an empty-string credits cell, the second a real title and numeric
credits. -/
def c6rows : List Row :=
  [mkRecord (vNum 1) (vStr "Off") (vStr "R1") (vStr "Alice") (vNum 4)
     (vStr "B21") (vStr "BTech") (vStr "CSE") (vStr "FT") (vStr "21CSC204J")
     (vStr "") (vStr "") (vStr "A+") (vStr "Regular"),
   mkRecord (vNum 2) (vStr "Off") (vStr "R2") (vStr "Bob") (vNum 4)
     (vStr "B21") (vStr "BTech") (vStr "CSE") (vStr "FT") (vStr "21CSC204J")
     (vStr "Data Structures") (vNum 4) (vStr "B") (vStr "Regular")]

/-- Characters kept by `normalizeCourseCode` are stable under the
upper-case map. -/
theorem az_upperChar {c : Char} (h : isAZ09 c = true) : upperChar c = c := by
  unfold isAZ09 at h
  simp only [Bool.or_eq_true, Bool.and_eq_true, decide_eq_true_eq] at h
  unfold upperChar
  rw [if_neg]
  rintro ⟨h1, h2⟩
  rcases h with ⟨_, hZ⟩ | ⟨_, h9⟩
  · exact absurd (le_trans h1 hZ) (by decide)
  · exact absurd (le_trans h1 h9) (by decide)

/-- Characters kept by `normalizeCourseCode` are not whitespace. -/
theorem az_not_ws {c : Char} (h : isAZ09 c = true) : isWsChar c = false := by
  unfold isAZ09 at h
  simp only [Bool.or_eq_true, Bool.and_eq_true, decide_eq_true_eq] at h
  unfold isWsChar
  rw [Bool.eq_false_iff]
  intro hc
  have hm : c ∈ wsChars := List.elem_iff.mp hc
  unfold wsChars at hm
  simp only [List.mem_cons, List.not_mem_nil, or_false] at hm
  rcases h with ⟨h1, h2⟩ | ⟨h1, h2⟩ <;>
    rcases hm with rfl | rfl | rfl | rfl | rfl | rfl | rfl <;>
      first
      | exact absurd h1 (by decide)
      | exact absurd h2 (by decide)

/-- A list of normalization-stable characters is fixed by the whole
upper-case / whitespace-strip / non-alphanumeric-strip chain. -/
theorem az_norm_fix {l : List Char} (h : ∀ c ∈ l, isAZ09 c = true) :
    ((l.map upperChar).filter (fun c => !isWsChar c)).filter isAZ09 = l := by
  induction l with
  | nil => simp
  | cons c t ih =>
      have hc := h c (List.mem_cons_self c t)
      have ht := ih fun x hx => h x (List.mem_cons_of_mem c hx)
      simp only [List.map_cons, List.filter_cons, az_upperChar hc, az_not_ws hc, hc,
        Bool.not_false, if_pos, ht]

/-- Every character of a normalized course code is in `[A-Z0-9]`. -/
theorem norm_chars_az (v : CellValue) :
    ∀ c ∈ (normalizeCourseCode v).data, isAZ09 c = true := by
  intro c hc
  exact (List.mem_filter.mp hc).2

/-- C9: course-code normalization is idempotent.  The claim quantifies
over strings; this theorem covers every cell value, and on a string `x`
the inner `normalizeCourseCode (vStr x)` is exactly `normalize(x)`. -/
theorem claim9_normalize_idempotent (v : CellValue) :
    normalizeCourseCode (vStr (normalizeCourseCode v)) = normalizeCourseCode v := by
  have key := az_norm_fix (norm_chars_az v)
  show String.mk ((((normalizeCourseCode v).data.map upperChar).filter
      (fun c => !isWsChar c)).filter isAZ09) = normalizeCourseCode v
  rw [key]

/-- Membership in a JS-set append step. -/
theorem mem_addToSet {s : List String} {x y : String} (h : x ∈ addToSet s y) :
    x ∈ s ∨ x = y := by
  unfold addToSet at h
  by_cases hc : s.contains y
  · rw [if_pos hc] at h
    exact Or.inl h
  · rw [if_neg hc] at h
    rcases List.mem_append.mp h with hs | hy
    · exact Or.inl hs
    · exact Or.inr (List.mem_singleton.mp hy)

/-- The course-code set accumulator never contains the empty string. -/
theorem allCourseCodesGo_no_empty :
    ∀ (rs : List Row) (s : List String), "" ∉ s → "" ∉ allCourseCodesGo s rs := by
  intro rs
  induction rs with
  | nil => intro s hs; exact hs
  | cons r t ih =>
      intro s hs
      by_cases hc : normalizeCourseCode (getColumnValue r "Course Code") = ""
      · simp only [allCourseCodesGo, hc]
        simpa using ih s hs
      · have hcb : (normalizeCourseCode (getColumnValue r "Course Code") == "") = false := by
          simpa using hc
        simp only [allCourseCodesGo, hcb, Bool.false_eq_true, if_false]
        refine ih _ ?_
        intro hmem
        rcases mem_addToSet hmem with hin | heq
        · exact hs hin
        · exact hc heq.symm

/-- C10: `normalizeCourseCode` is total over all cell values (it is a
Lean function, so it returns on every input without throwing), its output
characters all lie in `[A-Z0-9]`, null and undefined normalize to the
empty string, the batch's distinct course-code set never contains the
empty string, and hence no created course payload carries an empty
code. -/
theorem claim10_normalize_total_safe :
    (∀ v : CellValue, (normalizeCourseCode v).data.all isAZ09 = true) ∧
    normalizeCourseCode vNull = "" ∧
    normalizeCourseCode vUndef = "" ∧
    (∀ records : List Row, "" ∉ allCourseCodes records) ∧
    (∀ (records : List Row) (existingRows : List String),
      ∀ p ∈ coursesToInsert records existingRows, p.code ≠ "") := by
  have hset : ∀ records : List Row, "" ∉ allCourseCodes records := fun records =>
    allCourseCodesGo_no_empty records [] (by simp)
  refine ⟨?_, by decide, by decide, hset, ?_⟩
  · intro v
    rw [List.all_eq_true]
    exact norm_chars_az v
  · intro records existingRows p hp
    simp only [coursesToInsert] at hp
    rcases List.mem_map.mp hp with ⟨code, hcode, hfp⟩
    have hpcode : p.code = code := by
      rcases hfv : findVal (buildCourseMap records) code with _ | info <;>
        simp only [hfv] at hfp <;> rw [← hfp]
    have hmem : code ∈ allCourseCodes records := by
      simp only [newCourses] at hcode
      exact List.mem_of_mem_filter hcode
    intro hzero
    rw [hpcode] at hzero
    exact hset records (hzero ▸ hmem)

/-- Witness for C10: a concrete created course payload, with its
membership hypothesis discharged by evaluation. -/
theorem claim10_witness :
    (⟨"21CSC204J", vStr "Data Structures", vStr ""⟩ : CoursePayload) ∈
      coursesToInsert c6rows [] ∧
    (⟨"21CSC204J", vStr "Data Structures", vStr ""⟩ : CoursePayload).code ≠ "" :=
  ⟨by decide,
   claim10_normalize_total_safe.2.2.2.2 c6rows []
     ⟨"21CSC204J", vStr "Data Structures", vStr ""⟩ (by decide)⟩

/-- Counterexample to C1.  The claim describes "the pipeline's pass/fail
classification" as the three-tier scheme and asserts in particular that
every listed failing-set token classifies as false; but the batched
pipeline it cites (FileUpload v2, lines 648-652) classifies with
`isPassedBatched`, which marks the failing-set token "D" as PASSED (its
upper-cased form is not in ['F','AB','Ab','ab','WH','Wh','wh']), while the
claimed three-tier classification (tier b, implemented only by the legacy
`isPassedLegacy`) marks "D" as failed. -/
theorem claim1_counterexample :
    "D" ∈ failingGrades ∧ isPassedBatched "D" = true ∧ isPassedLegacy "D" = false := by
  decide

/-- C1 as amended: the legacy classifier does decide in the three stated
tiers — every passing-set token is true, every failing-set token is
false, and outside both sets it returns false exactly when some
lower-cased failing entry occurs in the lower-cased token — while the
batched pipeline's classifier is a different, single-tier rule: every
passing-set token is still true, but of the failing set only the case
variants of F, Ab and Wh classify as false; D, Fail, FAIL, fail, U, RA,
Absent, ABSENT, W and I classify as passed. -/
theorem claim1_amended_classifiers :
    (∀ g ∈ passingGrades, isPassedLegacy g = true) ∧
    (∀ g ∈ failingGrades, isPassedLegacy g = false) ∧
    (∀ g : String, passingGrades.contains g = false →
      failingGrades.contains g = false →
      (isPassedLegacy g = false ↔
        (failingGrades.any fun f => jsIncludes (jsToLower g) (jsToLower f)) = true)) ∧
    (∀ g ∈ passingGrades, isPassedBatched g = true) ∧
    failingGrades.map isPassedBatched =
      [true, false, true, true, true, true, true, false, false, false,
       true, true, true, true, false, false] := by
  refine ⟨by decide, by decide, ?_, by decide, by decide⟩
  intro g h1 h2
  simp only [isPassedLegacy, h1, h2, Bool.false_eq_true, if_false]
  simp only [Bool.not_eq_false']

/-- Witness for the amended C1: the tier-(c) fallback applied at the
concrete token "S*", which is in neither fixed set; its lower-cased form
contains no lower-cased failing entry, so it classifies as passed. -/
theorem claim1_witness :
    passingGrades.contains "S*" = false ∧
    failingGrades.contains "S*" = false ∧
    (isPassedLegacy "S*" = false ↔
      (failingGrades.any fun f => jsIncludes (jsToLower "S*") (jsToLower f)) = true) :=
  ⟨by decide, by decide,
   claim1_amended_classifiers.2.2.1 "S*" (by decide) (by decide)⟩

/-- C4 evaluation theorem.  The positive scenario of the claim holds: the
12-row grid with banners at rows 0-2 and the real header at row 3
resolves headerRowIndex = 3.  But the scan bound in the claim (and in the
code's own comment) is wrong about the code: for a 12-row grid whose rows
0..9 all score below the threshold while row 10 holds the labels, the
loop `for (r = 0; r <= min(0 + 10, lastRow); r++)` scans row 10 too and
selects 10, whereas scanning only rows 0..min(9, lastRow) would fall back
to row 0. -/
theorem claim4_header_scan_eval :
    headerRowIndex gridC4good = 3 ∧
    (∀ r : Nat, r < 10 → rowScore (gridC4bad.getD r []) < 6) ∧
    6 ≤ rowScore (gridC4bad.getD 10 []) ∧
    headerRowIndex gridC4bad = 10 := by
  decide

/-- The duplicate test of the reduce equals register-number membership
over the kept tuples. -/
theorem uniq_any_eq (acc : List StudentTuple) (r : String) :
    (acc.any fun s => s.register_number == r) =
      (acc.map fun s => s.register_number).contains r := by
  induction acc with
  | nil => rfl
  | cons a t ih =>
      simp only [List.any_cons, List.map_cons, List.contains_cons, ih]
      rw [show (a.register_number == r) = (r == a.register_number) from by
        simp [eq_comm]]

/-- The reduce of FileUpload v2, lines 538-543, computes exactly the
keep-first-occurrence-per-register-number selection. -/
theorem uniqueStudents_go_eq (l : List StudentTuple) :
    ∀ acc : List StudentTuple,
      l.foldl
        (fun acc student =>
          if acc.any (fun s => s.register_number == student.register_number) then acc
          else acc ++ [student]) acc
      = acc ++ keepFirstByReg (acc.map fun s => s.register_number) l := by
  induction l with
  | nil => intro acc; simp [keepFirstByReg]
  | cons s t ih =>
      intro acc
      rw [List.foldl_cons]
      by_cases hmem : ((acc.map fun x => x.register_number).contains s.register_number) = true
      · rw [if_pos (by rw [uniq_any_eq]; exact hmem)]
        rw [ih acc]
        simp only [keepFirstByReg]
        rw [if_pos hmem]
      · have hmf := Bool.not_eq_true _ |>.mp hmem
        rw [if_neg (by rw [uniq_any_eq, hmf]; simp)]
        rw [ih (acc ++ [s])]
        simp only [keepFirstByReg, List.map_append, List.map_cons, List.map_nil]
        rw [if_neg hmem]
        simp [List.append_assoc]

/-- Counterexample to C2.  In the spec's 3-row scenario the third row has
an empty register number and name, yet the student-mapping stage of the
batched pipeline (FileUpload v2, lines 526-543) performs no drop and no
skip count: the row's tuple, keyed by the empty register number, survives
deduplication, so the upsert list has 2 entries, not 1. -/
theorem claim2_counterexample :
    (studentsToUpsert scenarioRows).length = 3 ∧
    ((uniqueStudents (studentsToUpsert scenarioRows)).map
      fun s => s.register_number) = ["R1", ""] := by
  decide

/-- C2 as amended: the mapping stage maps every row to a student tuple —
rows with an empty register number or name are NOT dropped and nothing is
counted at this stage — and the list is deduplicated by register number
keeping the first occurrence in file order (`keepFirstByReg`); in the
spec's 3-row scenario the empty-register row therefore contributes a
tuple with register number "" and the upsert list has 2 entries. -/
theorem claim2_amended_dedup :
    (∀ records : List Row, (studentsToUpsert records).length = records.length) ∧
    (∀ l : List StudentTuple, uniqueStudents l = keepFirstByReg [] l) ∧
    ((uniqueStudents (studentsToUpsert scenarioRows)).map
      fun s => s.register_number) = ["R1", ""] := by
  refine ⟨?_, ?_, by decide⟩
  · intro records
    exact List.length_map records _
  · intro l
    have h := uniqueStudents_go_eq l []
    simpa [uniqueStudents] using h

/-- A `Map.get` result is truthy exactly when it holds a non-empty id. -/
theorem idTruthy_iff (o : Option String) :
    idTruthy o = true ↔ ∃ s, o = some s ∧ s ≠ "" := by
  cases o <;> simp [idTruthy]

/-- C3: every prepared grade payload has both foreign keys resolved from
the id maps and a non-empty trimmed grade token; each row yields at most
one payload; every row that yields no payload increments at least one of
the three per-reason skip counters; and (last conjunct) a run whose
records pass the empty-file and required-column checks never aborts —
skipped rows only affect the diagnostics. -/
theorem claim3_grade_fk_invariant :
    (∀ (studentIdMap courseIdMap : String → Option String) (records : List Row),
      (∀ p ∈ (prepareGrades studentIdMap courseIdMap records).payloads,
        (∃ k, studentIdMap k = some p.student_id ∧ p.student_id ≠ "") ∧
        (∃ k, courseIdMap k = some p.course_id ∧ p.course_id ≠ "") ∧
        p.grade ≠ "") ∧
      (prepareGrades studentIdMap courseIdMap records).payloads.length ≤ records.length ∧
      records.length - (prepareGrades studentIdMap courseIdMap records).payloads.length ≤
        (prepareGrades studentIdMap courseIdMap records).missingStudentId +
        (prepareGrades studentIdMap courseIdMap records).missingCourseId +
        (prepareGrades studentIdMap courseIdMap records).missingOrEmptyGrade) ∧
    (∀ (records : List Row) (existingRows : List String)
       (studentIdMap courseIdMap : String → Option String),
      records ≠ [] →
      missingColumns ((records.headD []).map Prod.fst) = [] →
      ∃ w, runPipeline records existingRows studentIdMap courseIdMap = Except.ok w) := by
  constructor
  · intro sMap cMap records
    induction records with
    | nil =>
        refine ⟨fun p hp => absurd hp ?_, ?_, ?_⟩ <;> simp [prepareGrades]
    | cons r rest ih =>
        obtain ⟨ihMem, ihLen, ihCnt⟩ := ih
        by_cases hcond :
            (idTruthy (sMap (normalizeRegisterNumber (getColumnValue r "Register No"))) &&
              idTruthy (cMap (normalizeCourseCode (getColumnValue r "Course Code"))) &&
              jsTruthy (getColumnValue r "Grade")) = true
        · by_cases hg : jsTrim (jsString (getColumnValue r "Grade")) ≠ ""
          · have heq : prepareGrades sMap cMap (r :: rest) =
                { prepareGrades sMap cMap rest with payloads :=
                    ⟨(sMap (normalizeRegisterNumber (getColumnValue r "Register No"))).getD "",
                     (cMap (normalizeCourseCode (getColumnValue r "Course Code"))).getD "",
                     jsTrim (jsString (getColumnValue r "Grade")),
                     isPassedBatched (jsTrim (jsString (getColumnValue r "Grade"))),
                     jsOrElse (getColumnValue r "Mode Of Attempt") (vStr "Regular")⟩ ::
                      (prepareGrades sMap cMap rest).payloads } := by
              simp only [prepareGrades]
              rw [if_pos hcond, if_pos hg]
            obtain ⟨hsc, hgt⟩ := Bool.and_eq_true _ _ |>.mp hcond
            obtain ⟨hs, hc⟩ := Bool.and_eq_true _ _ |>.mp hsc
            obtain ⟨sid, hsid, hsne⟩ := (idTruthy_iff _).mp hs
            obtain ⟨cid, hcid, hcne⟩ := (idTruthy_iff _).mp hc
            refine ⟨?_, ?_, ?_⟩
            · intro p hp
              rw [heq] at hp
              rcases List.mem_cons.mp hp with hphead | hptail
              · subst hphead
                refine ⟨⟨normalizeRegisterNumber (getColumnValue r "Register No"), ?_, ?_⟩,
                        ⟨normalizeCourseCode (getColumnValue r "Course Code"), ?_, ?_⟩, hg⟩
                · rw [hsid]; rfl
                · rw [hsid]; exact hsne
                · rw [hcid]; rfl
                · rw [hcid]; exact hcne
              · exact ihMem p hptail
            · rw [heq]
              simpa using Nat.succ_le_succ ihLen
            · rw [heq]
              simp only [List.length_cons]
              omega
          · have heq : prepareGrades sMap cMap (r :: rest) =
                { prepareGrades sMap cMap rest with missingOrEmptyGrade :=
                    (prepareGrades sMap cMap rest).missingOrEmptyGrade + 1 } := by
              simp only [prepareGrades]
              rw [if_pos hcond, if_neg hg]
            refine ⟨?_, ?_, ?_⟩
            · intro p hp
              rw [heq] at hp
              exact ihMem p hp
            · rw [heq]
              simpa using Nat.le_succ_of_le ihLen
            · rw [heq]
              simp only [List.length_cons]
              omega
        · have heq : prepareGrades sMap cMap (r :: rest) =
              { prepareGrades sMap cMap rest with
                missingStudentId := (prepareGrades sMap cMap rest).missingStudentId +
                  (if idTruthy (sMap (normalizeRegisterNumber (getColumnValue r "Register No")))
                    then 0 else 1),
                missingCourseId := (prepareGrades sMap cMap rest).missingCourseId +
                  (if idTruthy (cMap (normalizeCourseCode (getColumnValue r "Course Code")))
                    then 0 else 1),
                missingOrEmptyGrade := (prepareGrades sMap cMap rest).missingOrEmptyGrade +
                  (if jsTruthy (getColumnValue r "Grade") then 0 else 1) } := by
            simp only [prepareGrades]
            rw [if_neg hcond]
          refine ⟨?_, ?_, ?_⟩
          · intro p hp
            rw [heq] at hp
            exact ihMem p hp
          · rw [heq]
            simpa using Nat.le_succ_of_le ihLen
          · rw [heq]
            simp only [List.length_cons]
            have hone : 1 ≤
                (if idTruthy (sMap (normalizeRegisterNumber (getColumnValue r "Register No")))
                  then 0 else 1) +
                (if idTruthy (cMap (normalizeCourseCode (getColumnValue r "Course Code")))
                  then 0 else 1) +
                (if jsTruthy (getColumnValue r "Grade") then 0 else 1) := by
              rcases Bool.not_eq_true _ |>.mp hcond with h
              cases h1 : idTruthy (sMap (normalizeRegisterNumber (getColumnValue r "Register No"))) <;>
                cases h2 : idTruthy (cMap (normalizeCourseCode (getColumnValue r "Course Code"))) <;>
                  cases h3 : jsTruthy (getColumnValue r "Grade") <;>
                    simp_all
            omega
  · intro records existingRows sMap cMap hne hmc
    refine ⟨⟨coursesToInsert records existingRows,
             uniqueStudents (studentsToUpsert records),
             chunksOf 500 (prepareGrades sMap cMap records).payloads⟩, ?_⟩
    unfold runPipeline
    rw [if_neg (by simpa using hne)]
    rw [if_neg (by rw [hmc]; simp)]

/-- A concrete student-id oracle for witnesses. -/
def sMapEx : String → Option String :=
  fun k => if k = "R1" then some "sid1" else none

/-- A concrete course-id oracle for witnesses. -/
def cMapEx : String → Option String :=
  fun k => if k = "21CSC204J" then some "cid1" else none

/-- Witness for C3: on the 3-row scenario with oracles resolving only
student R1 and course 21CSC204J, exactly the first row yields a payload,
and the theorem instantiates to it. -/
theorem claim3_witness :
    (⟨"sid1", "cid1", "A+", true, vStr "Regular"⟩ : GradePayload) ∈
      (prepareGrades sMapEx cMapEx scenarioRows).payloads ∧
    ((∃ k, sMapEx k = some "sid1" ∧ "sid1" ≠ "") ∧
     (∃ k, cMapEx k = some "cid1" ∧ "cid1" ≠ "") ∧
     ("A+" : String) ≠ "") :=
  ⟨by decide,
   (claim3_grade_fk_invariant.1 sMapEx cMapEx scenarioRows).1
     ⟨"sid1", "cid1", "A+", true, vStr "Regular"⟩ (by decide)⟩

/-- Concatenating the chunks gives back the list (for positive chunk size
and enough fuel). -/
theorem chunksGo_join {α : Type} {n : Nat} (hn : 1 ≤ n) :
    ∀ (fuel : Nat) (l : List α), l.length ≤ fuel → (chunksGo n fuel l).flatten = l := by
  intro fuel
  induction fuel with
  | zero =>
      intro l hl
      rw [List.length_eq_zero.mp (Nat.le_zero.mp hl)]
      rfl
  | succ f ih =>
      intro l hl
      cases l with
      | nil => rfl
      | cons a as =>
          show ((a :: as).take n :: chunksGo n f ((a :: as).drop n)).flatten = a :: as
          rw [List.flatten_cons]
          rw [ih ((a :: as).drop n) ?_]
          · exact List.take_append_drop n (a :: as)
          · rw [List.length_drop]
            have h1 : 1 ≤ (a :: as).length := by simp
            omega

/-- Every chunk has at most `n` elements. -/
theorem chunksGo_mem_length {α : Type} {n : Nat} :
    ∀ (fuel : Nat) (l : List α), ∀ c ∈ chunksGo n fuel l, c.length ≤ n := by
  intro fuel
  induction fuel with
  | zero =>
      intro l c hc
      cases l <;> simp [chunksGo] at hc
  | succ f ih =>
      intro l c hc
      cases l with
      | nil => simp [chunksGo] at hc
      | cons a as =>
          rcases List.mem_cons.mp hc with rfl | htail
          · simp [List.length_take_le]
          · exact ih _ c htail

/-- A failure at chunk index `k` (with all earlier chunks succeeding)
commits exactly the first `k` chunks and surfaces the message with the
1-based index `k+1`. -/
theorem runBatchesGo_stops {α : Type} (failAt : Nat → Option String) (msg : String) :
    ∀ (cs : List (List α)) (m k : Nat),
      (∀ j, j < k → failAt (m + j) = none) → failAt (m + k) = some msg →
      k < cs.length →
      runBatchesGo failAt m cs =
        (cs.take k,
         some ("Error upserting grades batch " ++ toString (m + k + 1) ++ ": " ++ msg)) := by
  intro cs
  induction cs with
  | nil =>
      intro m k hpre hk hlt
      simp at hlt
  | cons c t ih =>
      intro m k hpre hk hlt
      cases k with
      | zero =>
          show (match failAt m with
                | some msg => ([], some ("Error upserting grades batch " ++ toString (m + 1) ++ ": " ++ msg))
                | none =>
                    let res := runBatchesGo failAt (m + 1) t
                    (c :: res.fst, res.snd)) = _
          have hk0 : failAt m = some msg := by simpa using hk
          rw [hk0]
          rfl
      | succ k' =>
          have h0 : failAt m = none := by
            have := hpre 0 (Nat.succ_pos k')
            simpa using this
          show (match failAt m with
                | some msg => ([], some ("Error upserting grades batch " ++ toString (m + 1) ++ ": " ++ msg))
                | none =>
                    let res := runBatchesGo failAt (m + 1) t
                    (c :: res.fst, res.snd)) = _
          rw [h0]
          have ihx := ih (m + 1) k'
            (fun j hj => by
              have := hpre (j + 1) (Nat.succ_lt_succ hj)
              rwa [show m + (j + 1) = m + 1 + j by omega] at this)
            (by rwa [show m + 1 + k' = m + (k' + 1) by omega])
            (by simpa using Nat.lt_of_succ_lt_succ hlt)
          rw [ihx]
          show (c :: (t.take k'), _) = _
          rw [show m + 1 + k' + 1 = m + (k' + 1) + 1 by omega]
          rfl

/-- With no failures, every chunk commits and no error surfaces. -/
theorem runBatchesGo_ok {α : Type} (failAt : Nat → Option String)
    (hok : ∀ j, failAt j = none) :
    ∀ (cs : List (List α)) (m : Nat), runBatchesGo failAt m cs = (cs, none) := by
  intro cs
  induction cs with
  | nil => intro m; rfl
  | cons c t ih =>
      intro m
      show (match failAt m with
            | some msg => ([], some ("Error upserting grades batch " ++ toString (m + 1) ++ ": " ++ msg))
            | none =>
                let res := runBatchesGo failAt (m + 1) t
                (c :: res.fst, res.snd)) = _
      rw [hok m, ih (m + 1)]

/-- A fixed grade payload for the batching scenarios. -/
def g0 : GradePayload := ⟨"s1", "c1", "A", true, vStr "Regular"⟩

/-- The claim's 1203-row grade batch. -/
def grades1203 : List GradePayload := List.replicate 1203 g0

/-- A store oracle that fails exactly the second chunk write. -/
def failEx : Nat → Option String := fun k => if k = 1 then some "boom" else none

set_option maxRecDepth 40000 in
/-- C5: grade payloads are chunked at 500 preserving order (concatenating
the chunks restores the input), every chunk has at most 500 elements, the
1203-row batch gives exactly chunk sizes [500, 500, 203] in order, a
forced failure on chunk 2 commits only chunk 1 and surfaces the message
with 1-based index 2, the general failure law commits exactly the chunks
before the first failing index and reports that index plus one, a
failure-free run commits all chunks, and student-id lookups are chunked
at 100 keys per request. -/
theorem claim5_batch_chunking :
    (∀ grades : List GradePayload, (chunksOf 500 grades).flatten = grades) ∧
    (∀ grades : List GradePayload, ∀ c ∈ chunksOf 500 grades, c.length ≤ 500) ∧
    (chunksOf 500 grades1203).map List.length = [500, 500, 203] ∧
    saveGrades failEx grades1203 =
      ([List.replicate 500 g0], some "Error upserting grades batch 2: boom") ∧
    (∀ (failAt : Nat → Option String) (grades : List GradePayload) (k : Nat) (msg : String),
      (∀ j, j < k → failAt j = none) → failAt k = some msg →
      k < (chunksOf 500 grades).length →
      saveGrades failAt grades =
        ((chunksOf 500 grades).take k,
         some ("Error upserting grades batch " ++ toString (k + 1) ++ ": " ++ msg))) ∧
    (∀ (failAt : Nat → Option String) (grades : List GradePayload),
      (∀ j, failAt j = none) → saveGrades failAt grades = (chunksOf 500 grades, none)) ∧
    (∀ l : List StudentTuple, (studentIdBatches l).flatten = l) ∧
    (∀ l : List StudentTuple, ∀ b ∈ studentIdBatches l, b.length ≤ 100) := by
  refine ⟨?_, ?_, by decide, by decide, ?_, ?_, ?_, ?_⟩
  · intro grades
    exact chunksGo_join (by decide) grades.length grades (le_refl _)
  · intro grades c hc
    exact chunksGo_mem_length grades.length grades c hc
  · intro failAt grades k msg hpre hk hlt
    have h := runBatchesGo_stops failAt msg (chunksOf 500 grades) 0 k
      (fun j hj => by rw [Nat.zero_add]; exact hpre j hj)
      (by rwa [Nat.zero_add]) hlt
    rw [saveGrades, h, Nat.zero_add]
  · intro failAt grades hok
    exact runBatchesGo_ok failAt hok (chunksOf 500 grades) 0
  · intro l
    exact chunksGo_join (by decide) l.length l (le_refl _)
  · intro l b hb
    exact chunksGo_mem_length l.length l b hb

/-- A 600-row grade batch for the witness (two chunks). -/
def grades600 : List GradePayload := List.replicate 600 g0

set_option maxRecDepth 40000 in
/-- Witness for C5: the general failure law applied at the concrete
oracle failing chunk 2 of a 600-row batch. -/
theorem claim5_witness :
    (∀ j, j < 1 → failEx j = none) ∧ failEx 1 = some "boom" ∧
    1 < (chunksOf 500 grades600).length ∧
    saveGrades failEx grades600 =
      ((chunksOf 500 grades600).take 1,
       some ("Error upserting grades batch " ++ toString (1 + 1) ++ ": " ++ "boom")) :=
  ⟨by decide, by decide, by decide,
   claim5_batch_chunking.2.2.2.2.1 failEx grades600 1 "boom"
     (by decide) (by decide) (by decide)⟩

/-- The rows of a batch whose normalized course code is `code`. -/
def rowsForCode (code : String) (records : List Row) : List Row :=
  records.filter fun r => normalizeCourseCode (getColumnValue r "Course Code") == code

/-- The course info captured from a first-sighting row. -/
def infoOfRow (r : Row) : CourseInfo :=
  ⟨getColumnValue r "Course Title", getColumnValue r "Credits"⟩

/-- The backfill merge of one later row into captured course info, stated
from the spec's first-write-wins wording: the title is replaced only when
the stored one is falsy and the new one truthy; the credits only when the
stored ones are nullish and the new ones are not. -/
def mergeInfo (a : CourseInfo) (r : Row) : CourseInfo :=
  ⟨if !jsTruthy a.title && jsTruthy (getColumnValue r "Course Title")
      then getColumnValue r "Course Title" else a.title,
   if jsNullish a.credits && !jsNullish (getColumnValue r "Credits")
      then getColumnValue r "Credits" else a.credits⟩

/-- Looking up the key just set. -/
theorem findVal_setVal_same {α : Type} :
    ∀ (m : List (String × α)) (k : String) (v : α),
      findVal (setVal m k v) k = some v := by
  intro m k v
  induction m with
  | nil => simp [setVal, findVal, List.find?]
  | cons kv t ih =>
      obtain ⟨k₀, v₀⟩ := kv
      by_cases h : (k₀ == k) = true
      · simp [setVal, h, findVal, List.find?]
      · have hf : (k₀ == k) = false := by simpa using h
        simp only [setVal, hf, Bool.false_eq_true, if_false]
        simp only [findVal, List.find?, hf] at ih ⊢
        exact ih

/-- Looking up a different key after a set. -/
theorem findVal_setVal_other {α : Type} :
    ∀ (m : List (String × α)) (k k' : String) (v : α), k' ≠ k →
      findVal (setVal m k v) k' = findVal m k' := by
  intro m k k' v hne
  have hkk : (k == k') = false := by
    simp only [beq_eq_false_iff_ne, ne_eq]
    exact fun h => hne h.symm
  induction m with
  | nil => simp [setVal, findVal, List.find?, hkk]
  | cons kv t ih =>
      obtain ⟨k₀, v₀⟩ := kv
      by_cases h : (k₀ == k) = true
      · have hk0 : k₀ = k := by simpa using h
        subst hk0
        simp [setVal, findVal, List.find?, hkk]
      · have hf : (k₀ == k) = false := by simpa using h
        simp only [setVal, hf, Bool.false_eq_true, if_false]
        by_cases h0 : (k₀ == k') = true
        · simp [findVal, List.find?, h0]
        · have hf0 : (k₀ == k') = false := by simpa using h0
          simp only [findVal, List.find?, hf0] at ih ⊢
          exact ih

/-- The captured info of a non-empty course code equals the merge-fold of
the rows sharing that code over the first such row's raw info (with any
prior map state folded first). -/
theorem buildCourseMapGo_char (code : String) (hcode : code ≠ "") :
    ∀ (rs : List Row) (m : List (String × CourseInfo)),
      findVal (buildCourseMapGo m rs) code =
        match findVal m code with
        | some i => some ((rowsForCode code rs).foldl mergeInfo i)
        | none =>
            match rowsForCode code rs with
            | [] => none
            | r :: rest => some (rest.foldl mergeInfo (infoOfRow r)) := by
  intro rs
  induction rs with
  | nil =>
      intro m
      cases hf : findVal m code <;> simp [buildCourseMapGo, rowsForCode, hf]
  | cons r t ih =>
      intro m
      show findVal (buildCourseMapGo (courseStep m r) t) code = _
      by_cases hc : normalizeCourseCode (getColumnValue r "Course Code") = ""
      · have hstep : courseStep m r = m := by
          simp [courseStep, hc]
        have hrow : rowsForCode code (r :: t) = rowsForCode code t := by
          simp only [rowsForCode, List.filter_cons]
          rw [if_neg (by simp [hc]; exact fun h => hcode h.symm)]
        rw [hstep, hrow]
        exact ih m
      · have hcb : (normalizeCourseCode (getColumnValue r "Course Code") == "") = false := by
          simpa using hc
        by_cases hcc : normalizeCourseCode (getColumnValue r "Course Code") = code
        · have hrow : rowsForCode code (r :: t) = r :: rowsForCode code t := by
            simp only [rowsForCode, List.filter_cons]
            rw [if_pos (by simpa using hcc)]
          rw [hrow]
          cases hf : findVal m code with
          | none =>
              have hstep : courseStep m r = setVal m code (infoOfRow r) := by
                simp only [courseStep, hcb, Bool.false_eq_true, if_false]
                rw [hcc, hf]
                rfl
              rw [hstep, ih (setVal m code (infoOfRow r)), findVal_setVal_same]
          | some ex =>
              have hstep : courseStep m r = setVal m code (mergeInfo ex r) := by
                simp only [courseStep, hcb, Bool.false_eq_true, if_false]
                rw [hcc, hf]
                rfl
              rw [hstep, ih (setVal m code (mergeInfo ex r)), findVal_setVal_same]
              simp [List.foldl_cons]
        · have hrow : rowsForCode code (r :: t) = rowsForCode code t := by
            simp only [rowsForCode, List.filter_cons]
            rw [if_neg (by simpa using hcc)]
          have hstep : findVal (courseStep m r) code = findVal m code := by
            simp only [courseStep, hcb, Bool.false_eq_true, if_false]
            cases hf : findVal m (normalizeCourseCode (getColumnValue r "Course Code")) with
            | none => exact findVal_setVal_other m _ code _ (fun h => hcc h.symm)
            | some ex => exact findVal_setVal_other m _ code _ (fun h => hcc h.symm)
          rw [hrow, ih (courseStep m r)]
          rw [hstep]

/-- A truthy captured title is never overwritten by later rows. -/
theorem foldl_mergeInfo_title :
    ∀ (rows : List Row) (i : CourseInfo), jsTruthy i.title = true →
      (rows.foldl mergeInfo i).title = i.title := by
  intro rows
  induction rows with
  | nil => intro i _; rfl
  | cons r t ih =>
      intro i hi
      rw [List.foldl_cons]
      have hm : mergeInfo i r = ⟨i.title, (mergeInfo i r).credits⟩ := by
        simp [mergeInfo, hi]
      rw [hm]
      exact ih ⟨i.title, (mergeInfo i r).credits⟩ hi

/-- Counterexample to C6.  For two rows sharing course code 21CSC204J
where row 1 carries an empty-string credits cell and row 2 credits 4, the
captured credits stay the empty string: the backfill guard is
`existing.credits == null`, and `''` is not nullish, so the first EMPTY
credit value is retained and the first non-empty one (4) is not — against
the claim's "first non-empty credit value ... later rows only backfill
missing fields". -/
theorem claim6_counterexample :
    findVal (buildCourseMap c6rows) "21CSC204J" =
      some ⟨vStr "Data Structures", vStr ""⟩ ∧
    (c6rows.map fun r => getColumnValue r "Credits") = [vStr "", vNum 4] := by
  decide

/-- C6 as amended: for each non-empty normalized code the captured info
is the fold of the backfill merge over the rows sharing that code,
starting from the first such row's raw values — so the captured title is
backfilled only while falsy (a truthy title is never overwritten), but
the captured credits are backfilled only while NULLISH: the first
non-null credit value wins even when it is the empty string.  A created
course's name is the captured title when truthy and the code otherwise;
in the two-row scenario where row 1 has no title and row 2 has one, the
created record's name is row 2's title, not the code. -/
theorem claim6_amended_backfill :
    (∀ (code : String), code ≠ "" → ∀ (records : List Row),
      findVal (buildCourseMap records) code =
        match rowsForCode code records with
        | [] => none
        | r :: rest => some (rest.foldl mergeInfo (infoOfRow r))) ∧
    (∀ (rows : List Row) (i : CourseInfo), jsTruthy i.title = true →
      (rows.foldl mergeInfo i).title = i.title) ∧
    coursesToInsert c6rows [] = [⟨"21CSC204J", vStr "Data Structures", vStr ""⟩] := by
  refine ⟨?_, foldl_mergeInfo_title, by decide⟩
  intro code hcode records
  have h := buildCourseMapGo_char code hcode records []
  simpa [buildCourseMap, findVal] using h

/-- Witness for the amended C6: the characterization applied at the
concrete code 21CSC204J over the two-row scenario. -/
theorem claim6_witness :
    ("21CSC204J" : String) ≠ "" ∧
    findVal (buildCourseMap c6rows) "21CSC204J" =
      match rowsForCode "21CSC204J" c6rows with
      | [] => none
      | r :: rest => some (rest.foldl mergeInfo (infoOfRow r)) :=
  ⟨by decide, claim6_amended_backfill.1 "21CSC204J" (by decide) c6rows⟩

/-- C7: the validation passes exactly when every canonical required
column has a raw header matching under trim-and-lowercase equality, and
when any is missing the pipeline fails before preparing any write, with
the error enumerating the missing canonical names and the actual headers
found. -/
theorem claim7_required_columns :
    (∀ actualColumns : List String,
      missingColumns actualColumns = [] ↔
        ∀ req ∈ requiredColumns, ∃ a ∈ actualColumns,
          jsToLower (jsTrim a) = jsToLower req) ∧
    (∀ (records : List Row) (existingRows : List String)
       (studentIdMap courseIdMap : String → Option String),
      records ≠ [] →
      missingColumns ((records.headD []).map Prod.fst) ≠ [] →
      runPipeline records existingRows studentIdMap courseIdMap =
        Except.error
          (missingColumnsMsg (missingColumns ((records.headD []).map Prod.fst))
            ((records.headD []).map Prod.fst))) := by
  constructor
  · intro actual
    simp [missingColumns, List.filter_eq_nil_iff, List.any_eq_true, List.mem_map, beq_iff_eq]
  · intro records existingRows sMap cMap hne hmc
    unfold runPipeline
    rw [if_neg (by simpa using hne)]
    rw [if_pos (by simpa using hmc)]

/-- A single-record batch whose only header is Register No. -/
def badRows : List Row := [[("Register No", vStr "R1")]]

/-- Witness for C7: on a batch missing 13 of the 14 required columns the
pipeline fails fast with the enumerating message. -/
theorem claim7_witness :
    badRows ≠ [] ∧
    missingColumns ((badRows.headD []).map Prod.fst) ≠ [] ∧
    runPipeline badRows [] sMapEx cMapEx =
      Except.error
        (missingColumnsMsg (missingColumns ((badRows.headD []).map Prod.fst))
          ((badRows.headD []).map Prod.fst)) :=
  ⟨by decide, by decide,
   claim7_required_columns.2 badRows [] sMapEx cMapEx (by decide) (by decide)⟩

/-- `Map.set` never yields an empty map. -/
theorem setVal_ne_nil {α : Type} (m : List (String × α)) (k : String) (v : α) :
    setVal m k v ≠ [] := by
  cases m with
  | nil => simp [setVal]
  | cons kv t =>
      obtain ⟨k₀, v₀⟩ := kv
      by_cases h : (k₀ == k) = true <;> simp [setVal, h]

/-- Folding sets over a non-empty map keeps it non-empty. -/
theorem foldl_setVal_ne_nil (rows : List (String × String)) :
    ∀ m : List (String × String), m ≠ [] →
      rows.foldl (fun m p => setVal m (normalizeCourseCode (vStr p.fst)) p.snd) m ≠ [] := by
  induction rows with
  | nil => intro m hm; simpa using hm
  | cons q u ih =>
      intro m hm
      rw [List.foldl_cons]
      exact ih _ (setVal_ne_nil _ _ _)

/-- A map built from at least one fetched row is non-empty. -/
theorem mkIdMap_ne_nil (rows : List (String × String)) (h : rows ≠ []) :
    mkIdMap rows ≠ [] := by
  obtain ⟨p, t, rfl⟩ := List.exists_cons_of_ne_nil h
  show List.foldl _ (setVal [] (normalizeCourseCode (vStr p.fst)) p.snd) t ≠ []
  exact foldl_setVal_ne_nil t _ (setVal_ne_nil _ _ _)

/-- C8: when the first course-id fetch returns rows (or the requested
code set is empty) the fallback never runs and no forced inserts are
issued; when the fetch is empty and codes were requested, the pipeline
retries exactly once, force-upserting one record per requested code with
the name defaulted to the code and null credits and taking the re-query's
ids; and a store error during that forced insert aborts the run with the
ensuring-courses error. -/
theorem claim8_course_fallback :
    (∀ (allCodes : List String) (fetch1 fetch2 : List (String × String))
       (upsertResult : Except String Unit),
      fetch1 ≠ [] →
      resolveCourseIds allCodes fetch1 upsertResult fetch2 =
        Except.ok (mkIdMap fetch1, [])) ∧
    (∀ (fetch1 fetch2 : List (String × String)) (upsertResult : Except String Unit),
      resolveCourseIds [] fetch1 upsertResult fetch2 =
        Except.ok (mkIdMap fetch1, [])) ∧
    (∀ (allCodes : List String) (fetch2 : List (String × String)),
      allCodes ≠ [] →
      resolveCourseIds allCodes [] (Except.ok ()) fetch2 =
        Except.ok (mkIdMap fetch2,
          allCodes.map fun code => CoursePayload.mk code (vStr code) vNull)) ∧
    (∀ (allCodes : List String) (fetch2 : List (String × String)) (msg : String),
      allCodes ≠ [] →
      resolveCourseIds allCodes [] (Except.error msg) fetch2 =
        Except.error ("Error ensuring courses: " ++ msg)) := by
  refine ⟨?_, ?_, ?_, ?_⟩
  · intro allCodes fetch1 fetch2 upsertResult h1
    unfold resolveCourseIds
    rw [if_neg]
    intro hC
    have hlen := (Bool.and_eq_true _ _ |>.mp hC).1
    have : (mkIdMap fetch1).length = 0 := by simpa using hlen
    exact mkIdMap_ne_nil fetch1 h1 (List.length_eq_zero.mp this)
  · intro fetch1 fetch2 upsertResult
    unfold resolveCourseIds
    rw [if_neg]
    intro hC
    have hne := (Bool.and_eq_true _ _ |>.mp hC).2
    simp at hne
  · intro allCodes fetch2 hne
    have hie : allCodes.isEmpty = false := by
      cases allCodes with
      | nil => exact absurd rfl hne
      | cons a t => rfl
    unfold resolveCourseIds
    rw [if_pos (by simp [mkIdMap, hie])]
  · intro allCodes fetch2 msg hne
    have hie : allCodes.isEmpty = false := by
      cases allCodes with
      | nil => exact absurd rfl hne
      | cons a t => rfl
    unfold resolveCourseIds
    rw [if_pos (by simp [mkIdMap, hie])]

/-- Witness for C8: a store failure during the forced insert of the one
requested code aborts the run with the ensuring-courses error. -/
theorem claim8_witness :
    (["A1"] : List String) ≠ [] ∧
    resolveCourseIds ["A1"] [] (Except.error "down") [] =
      Except.error ("Error ensuring courses: " ++ "down") :=
  ⟨by decide, claim8_course_fallback.2.2.2 ["A1"] [] "down" (by decide)⟩
